import Mathlib

/-!
Shallow embedding of the role-playing game core (stream decoding, tag
command parsing, movement intent detection and the bounded conversation
memory store) together with theorems checking the specification's claims
against the code.  Working strings are represented as `List Char`; the
JavaScript regular expressions used by the source are embedded via a small
backtracking matcher that mirrors the ECMAScript semantics (ordered
alternation, greedy and lazy repetition, leftmost match).
-/

set_option maxRecDepth 200000

namespace RoleGame

/-- JavaScript `String.prototype.trim`: drop whitespace at both ends. -/
def jsTrim (s : List Char) : List Char :=
  (s.dropWhile Char.isWhitespace).reverse.dropWhile Char.isWhitespace |>.reverse

/-- JavaScript `String.prototype.toLowerCase` (ASCII case folding). -/
def lowerStr (s : List Char) : List Char := s.map Char.toLower

/-- JavaScript `Array.prototype.slice(-n)`: for `n = 0` the index is `-0 = 0`
so the whole array is returned; otherwise the last `min n length` elements. -/
def jsSliceNeg (n : Nat) (l : List α) : List α :=
  if n = 0 then l else l.drop (l.length - n)

/-- The last `n` elements of a list (the whole list when it is shorter). -/
def takeRight (n : Nat) (l : List α) : List α := l.drop (l.length - n)

/-- Decimal value of a digit string, as produced by `parseInt` on `\d+`. -/
def digitsToInt (s : List Char) : Int :=
  Int.ofNat (s.foldl (fun acc c => acc * 10 + (c.toNat - '0'.toNat)) 0)

/-- Helper for `hyphenateWs`: `inRun` records whether the previous character
was whitespace (its hyphen has already been emitted). -/
def hyphenateWsAux : Bool → List Char → List Char
  | _, [] => []
  | inRun, c :: rest =>
    if c.isWhitespace then
      if inRun then hyphenateWsAux true rest else '-' :: hyphenateWsAux true rest
    else c :: hyphenateWsAux false rest

/-- JavaScript `replace(/\s+/g, "-")`: each maximal whitespace run becomes
one hyphen. -/
def hyphenateWs (s : List Char) : List Char := hyphenateWsAux false s

/-- Identifier slug used throughout the parser:
`name.trim().toLowerCase().replace(/\s+/g, "-")`. -/
def slugify (s : List Char) : List Char := hyphenateWs (lowerStr (jsTrim s))

/-! ## Regular-expression engine

A syntax of regular expressions covering the constructs used by the
source's patterns, together with a continuation-passing backtracking
matcher whose branch order reproduces the ECMAScript behaviour: ordered
alternation, greedy `*`, `+`, `?`, lazy `+?` and `\x7bm,n\x7d?`, capture
groups and the `$` anchor. -/

/-- Capture groups one to three of a match (ECMAScript numbering). -/
structure Caps where
  g1 : Option (List Char) := none
  g2 : Option (List Char) := none
  g3 : Option (List Char) := none
deriving DecidableEq

/-- Store a capture under its group number. -/
def setCap (n : Nat) (v : List Char) (c : Caps) : Caps :=
  match n with
  | 1 => { c with g1 := some v }
  | 2 => { c with g2 := some v }
  | _ => { c with g3 := some v }

/-- Regular expression syntax. `star true` is the lazy variant. -/
inductive RE where
  | eps : RE
  | cls (p : Char → Bool) : RE
  | cat (a b : RE) : RE
  | alt (a b : RE) : RE
  | star (lazy : Bool) (a : RE) : RE
  | grp (n : Nat) (a : RE) : RE
  | eos : RE

/-- Structural size of a regular expression, used to bound matcher depth. -/
def reSize : RE → Nat
  | .eps => 1
  | .cls _ => 1
  | .cat a b => reSize a + reSize b + 1
  | .alt a b => reSize a + reSize b + 1
  | .star _ a => reSize a + 1
  | .grp _ a => reSize a + 1
  | .eos => 1

/-- Backtracking matcher in continuation-passing style.  The continuation
receives the unconsumed suffix and the captures; the first success in the
ECMAScript backtracking order wins.  `fuel` bounds the call depth; the
callers below always supply enough fuel for the patterns in this file. -/
def mrun : Nat → RE → List Char → Caps → (List Char → Caps → Option (List Char × Caps)) →
    Option (List Char × Caps)
  | 0, _, _, _, _ => none
  | _ + 1, .eps, s, cp, k => k s cp
  | _ + 1, .eos, s, cp, k => if s.isEmpty then k s cp else none
  | _ + 1, .cls p, s, cp, k =>
    match s with
    | [] => none
    | c :: rest => if p c then k rest cp else none
  | n + 1, .cat a b, s, cp, k => mrun n a s cp (fun s' cp' => mrun n b s' cp' k)
  | n + 1, .alt a b, s, cp, k => (mrun n a s cp k).orElse (fun _ => mrun n b s cp k)
  | n + 1, .star lz a, s, cp, k =>
    if lz then
      (k s cp).orElse (fun _ =>
        mrun n a s cp (fun s' cp' =>
          if s'.length < s.length then mrun n (.star lz a) s' cp' k else none))
    else
      (mrun n a s cp (fun s' cp' =>
        if s'.length < s.length then mrun n (.star lz a) s' cp' k else k s' cp')).orElse
        (fun _ => k s cp)
  | n + 1, .grp i a, s, cp, k =>
    mrun n a s cp (fun s' cp' => k s' (setCap i (s.take (s.length - s'.length)) cp'))

/-- Fuel sufficient for matching `r` against `s`. -/
def reFuel (r : RE) (s : List Char) : Nat := (reSize r + 2) * (s.length + 2) + 8

/-- Try to match `r` at the start of `s`; on success return the unconsumed
suffix and the captures. -/
def reMatchAt (r : RE) (s : List Char) : Option (List Char × Caps) :=
  mrun (reFuel r s) r s {} (fun rest cp => some (rest, cp))

/-- Leftmost search, as performed by an unanchored ECMAScript regex: try
successive start positions.  Returns `(prefix, matched, suffix, captures)`. -/
def reSearchAux (r : RE) : List Char → List Char →
    Option (List Char × List Char × List Char × Caps)
  | s, pre =>
    match reMatchAt r s with
    | some (rest, cp) => some (pre, s.take (s.length - rest.length), rest, cp)
    | none =>
      match s with
      | [] => none
      | c :: s' => reSearchAux r s' (pre ++ [c])

/-- Leftmost search from the start of the text. -/
def reSearch (r : RE) (s : List Char) : Option (List Char × List Char × List Char × Caps) :=
  reSearchAux r s []

/-- `regex.test`, for an unanchored pattern. -/
def reTest (r : RE) (s : List Char) : Bool := (reSearch r s).isSome

/-- `regex.test`, for a pattern anchored with a leading caret. -/
def reTestAt0 (r : RE) (s : List Char) : Bool := (reMatchAt r s).isSome

/-! ### Combinators used to transcribe the source's pattern literals -/

/-- Concatenation of a list of expressions. -/
def rcat (l : List RE) : RE := l.foldr .cat .eps

/-- Ordered alternation of a nonempty list of expressions. -/
def ralt : List RE → RE
  | [] => .cls (fun _ => false)
  | [r] => r
  | r :: rs => .alt r (ralt rs)

/-- A single literal character (case-sensitive). -/
def chr (c : Char) : RE := .cls (fun x => x = c)

/-- Case-sensitive literal string. -/
def lit (s : String) : RE := rcat (s.data.map chr)

/-- Case-insensitive literal string; write the argument lowercase. -/
def liti (s : String) : RE := rcat (s.data.map (fun c => .cls (fun x => x.toLower = c)))

/-- Greedy option `?`. -/
def optG (r : RE) : RE := .alt r .eps

/-- Greedy repetition `+`. -/
def plusG (r : RE) : RE := .cat r (.star false r)

/-- Lazy repetition `+?`. -/
def plusL (r : RE) : RE := .cat r (.star true r)

/-- At most `n` further greedy repetitions. -/
def upToG : Nat → RE → RE
  | 0, _ => .eps
  | n + 1, r => .alt (.cat r (upToG n r)) .eps

/-- At most `n` further lazy repetitions. -/
def upToL : Nat → RE → RE
  | 0, _ => .eps
  | n + 1, r => .alt .eps (.cat r (upToL n r))

/-- Bounded greedy repetition of `m` up to `m + extra` copies. -/
def repG (m extra : Nat) (r : RE) : RE := rcat (List.replicate m r ++ [upToG extra r])

/-- Bounded lazy repetition of `m` up to `m + extra` copies. -/
def repL (m extra : Nat) (r : RE) : RE := rcat (List.replicate m r ++ [upToL extra r])

/-- The ECMAScript `\s` class (ASCII portion). -/
def wsC : RE := .cls Char.isWhitespace

/-- `\s*`. -/
def wsStar : RE := .star false wsC

/-- `\s+`. -/
def wsPlus : RE := plusG wsC

/-- The ECMAScript dot: any character except a line terminator. -/
def dotC : RE := .cls (fun c => ¬ (c = '\n' ∨ c = '\r'))

/-- ASCII letter, the class `[a-zA-Z]`. -/
def alphaB (c : Char) : Bool := ('a' ≤ c ∧ c ≤ 'z') ∨ ('A' ≤ c ∧ c ≤ 'Z')

/-! ## JSON values and `JSON.parse`

The stream decoder hands candidate spans to `JSON.parse`; we model parsing
with an explicit value type.  Number literals keep their lexeme, which is
enough to compare concrete decoded messages. -/

/-- A parsed JSON value. -/
inductive Json where
  | null : Json
  | bool (b : Bool) : Json
  | num (lexeme : List Char) : Json
  | str (s : List Char) : Json
  | arr (elems : List Json) : Json
  | obj (fields : List (List Char × Json)) : Json

/-- JSON insignificant whitespace. -/
def jsonWsB (c : Char) : Bool := c = ' ' ∨ c = '\t' ∨ c = '\n' ∨ c = '\r'

/-- Skip JSON whitespace. -/
def skipWs (s : List Char) : List Char := s.dropWhile jsonWsB

/-- Value of a hexadecimal digit. -/
def hexVal (c : Char) : Option Nat :=
  if '0' ≤ c ∧ c ≤ '9' then some (c.toNat - '0'.toNat)
  else if 'a' ≤ c ∧ c ≤ 'f' then some (c.toNat - 'a'.toNat + 10)
  else if 'A' ≤ c ∧ c ≤ 'F' then some (c.toNat - 'A'.toNat + 10)
  else none

/-- Body of a JSON string literal after the opening quote: returns the
decoded content and the suffix after the closing quote.  Raw control
characters are rejected, escape sequences are decoded. -/
def parseStringBody : Nat → List Char → List Char → Option (List Char × List Char)
  | 0, _, _ => none
  | _ + 1, [], _ => none
  | fuel + 1, c :: rest, acc =>
    if c = '"' then some (acc, rest)
    else if c = '\\' then
      match rest with
      | [] => none
      | e :: rest' =>
        if e = '"' then parseStringBody fuel rest' (acc ++ ['"'])
        else if e = '\\' then parseStringBody fuel rest' (acc ++ ['\\'])
        else if e = '/' then parseStringBody fuel rest' (acc ++ ['/'])
        else if e = 'b' then parseStringBody fuel rest' (acc ++ [Char.ofNat 8])
        else if e = 'f' then parseStringBody fuel rest' (acc ++ [Char.ofNat 12])
        else if e = 'n' then parseStringBody fuel rest' (acc ++ ['\n'])
        else if e = 'r' then parseStringBody fuel rest' (acc ++ ['\r'])
        else if e = 't' then parseStringBody fuel rest' (acc ++ ['\t'])
        else if e = 'u' then
          match rest' with
          | h1 :: h2 :: h3 :: h4 :: rest'' =>
            match hexVal h1, hexVal h2, hexVal h3, hexVal h4 with
            | some a, some b, some c', some d =>
              parseStringBody fuel rest'' (acc ++ [Char.ofNat (((a * 16 + b) * 16 + c') * 16 + d)])
            | _, _, _, _ => none
          | _ => none
        else none
    else if c.toNat < 32 then none
    else parseStringBody fuel rest (acc ++ [c])

/-- Lex a JSON number literal; returns the lexeme and the suffix. -/
def parseNumber (s : List Char) : Option (List Char × List Char) := do
  let (sign, s1) := match s with
    | '-' :: r => (['-'], r)
    | _ => (([] : List Char), s)
  let (intPart, s2) ← match s1 with
    | '0' :: r => some ((['0'] : List Char), r)
    | c :: r =>
      if c.isDigit ∧ c ≠ '0' then
        some (c :: r.takeWhile Char.isDigit, r.dropWhile Char.isDigit)
      else none
    | [] => none
  let (fracPart, s3) ← match s2 with
    | '.' :: r =>
      let ds := r.takeWhile Char.isDigit
      if ds = [] then none else some ('.' :: ds, r.dropWhile Char.isDigit)
    | _ => some (([] : List Char), s2)
  let (expPart, s4) ← match s3 with
    | c :: r =>
      if c = 'e' ∨ c = 'E' then
        let (es, r') := match r with
          | '+' :: r' => (([c, '+'] : List Char), r')
          | '-' :: r' => ([c, '-'], r')
          | _ => ([c], r)
        let ds := r'.takeWhile Char.isDigit
        if ds = [] then none else some (es ++ ds, r'.dropWhile Char.isDigit)
      else some (([] : List Char), s3)
    | [] => some ([], s3)
  pure (sign ++ intPart ++ fracPart ++ expPart, s4)

mutual

/-- Parse one JSON value, returning it with the unconsumed suffix. -/
def parseValue : Nat → List Char → Option (Json × List Char)
  | 0, _ => none
  | fuel + 1, s =>
    match skipWs s with
    | '{' :: rest =>
      match skipWs rest with
      | '}' :: r => some (.obj [], r)
      | r => parseMembers fuel r []
    | '[' :: rest =>
      match skipWs rest with
      | ']' :: r => some (.arr [], r)
      | r => parseElems fuel r []
    | '"' :: rest => do
      let (content, r) ← parseStringBody (rest.length + 1) rest []
      pure (.str content, r)
    | 't' :: 'r' :: 'u' :: 'e' :: rest => some (.bool true, rest)
    | 'f' :: 'a' :: 'l' :: 's' :: 'e' :: rest => some (.bool false, rest)
    | 'n' :: 'u' :: 'l' :: 'l' :: rest => some (.null, rest)
    | s' => do
      let (lex, r) ← parseNumber s'
      pure (.num lex, r)

/-- Parse the members of a JSON object, the next token being a key. -/
def parseMembers : Nat → List Char → List (List Char × Json) →
    Option (Json × List Char)
  | 0, _, _ => none
  | fuel + 1, s, acc =>
    match skipWs s with
    | '"' :: rest => do
      let (key, r1) ← parseStringBody (rest.length + 1) rest []
      match skipWs r1 with
      | ':' :: r2 => do
        let (v, r3) ← parseValue fuel r2
        match skipWs r3 with
        | ',' :: r4 => parseMembers fuel r4 (acc ++ [(key, v)])
        | '}' :: r4 => some (.obj (acc ++ [(key, v)]), r4)
        | _ => none
      | _ => none
    | _ => none

/-- Parse the elements of a JSON array. -/
def parseElems : Nat → List Char → List Json → Option (Json × List Char)
  | 0, _, _ => none
  | fuel + 1, s, acc => do
    let (v, r) ← parseValue fuel s
    match skipWs r with
    | ',' :: r' => parseElems fuel r' (acc ++ [v])
    | ']' :: r' => some (.arr (acc ++ [v]), r')
    | _ => none

end

/-- `JSON.parse`: one JSON value spanning the whole text (modulo
whitespace); anything else fails. -/
def parseJson (s : List Char) : Option Json := do
  let (v, rest) ← parseValue (s.length + 2) s
  if skipWs rest = [] then pure v else none

/-! ## Stream decoder (`generateResponseStream` scan loop)

State and scan loop of the chunk decoder in `ollamaService.ts`: a rolling
buffer, a bracket-depth counter, string/escape flags and the recorded
start offset.  Each arriving chunk is appended to the buffer and the loop
index restarts at zero, exactly as in the source. -/

/-- Persistent scan state of the stream decoder. -/
structure DecSt where
  buffer : List Char := []
  brackets : Int := 0
  inString : Bool := false
  escaped : Bool := false
  startIdx : Int := -1

/-- The decoder's inner character loop (state passed as scalars).  On a
completed span the candidate is given to `JSON.parse`; on success it is
yielded, and in either case the consumed prefix is removed and the index
restarts. -/
def scanLoop : Nat → List Char → Int → Bool → Bool → Int → Nat → List Json →
    DecSt × List Json
  | 0, buffer, brackets, inString, escaped, startIdx, _, acc =>
    (⟨buffer, brackets, inString, escaped, startIdx⟩, acc)
  | fuel + 1, buffer, brackets, inString, escaped, startIdx, i, acc =>
    if h : i < buffer.length then
      let c := buffer.get ⟨i, h⟩
      if escaped then scanLoop fuel buffer brackets inString false startIdx (i + 1) acc
      else if c = '\\' then scanLoop fuel buffer brackets inString true startIdx (i + 1) acc
      else if c = '"' then scanLoop fuel buffer brackets (!inString) escaped startIdx (i + 1) acc
      else if inString then scanLoop fuel buffer brackets inString escaped startIdx (i + 1) acc
      else if c = '{' then
        if brackets = 0 then
          scanLoop fuel buffer (brackets + 1) inString escaped (Int.ofNat i) (i + 1) acc
        else scanLoop fuel buffer (brackets + 1) inString escaped startIdx (i + 1) acc
      else if c = '}' then
        if brackets - 1 = 0 ∧ startIdx ≠ -1 then
          match parseJson ((buffer.take (i + 1)).drop startIdx.toNat) with
          | some v =>
            scanLoop fuel (buffer.drop (i + 1)) (brackets - 1) inString escaped (-1) 0 (acc ++ [v])
          | none =>
            scanLoop fuel (buffer.drop (i + 1)) (brackets - 1) inString escaped (-1) 0 acc
        else scanLoop fuel buffer (brackets - 1) inString escaped startIdx (i + 1) acc
      else scanLoop fuel buffer brackets inString escaped startIdx (i + 1) acc
    else (⟨buffer, brackets, inString, escaped, startIdx⟩, acc)

/-- Append one transport chunk to the buffer and run the scan loop. -/
def processChunk (st : DecSt) (chunk : List Char) : DecSt × List Json :=
  let buf := st.buffer ++ chunk
  scanLoop (buf.length + 1) buf st.brackets st.inString st.escaped st.startIdx 0 []

/-- Decode a whole fragment sequence: fold the chunks through the scanner,
then, at transport completion, attempt one final whole-buffer parse when a
non-blank buffer remains. -/
def decodeStream (frags : List (List Char)) : List Json :=
  let (stF, acc) := frags.foldl (fun (p : DecSt × List Json) chunk =>
    let (st', out) := processChunk p.1 chunk
    (st', p.2 ++ out)) ({}, [])
  if jsTrim stF.buffer ≠ [] then
    acc ++ (match parseJson stF.buffer with | some v => [v] | none => [])
  else acc

/-! ## Game data model (`types/index.ts`) and store (`useGameStore.ts`)

Timestamps are integers (`Date.now()` values are passed in as parameters
where the source reads the clock), ids are strings supplied by callers or
by a parameterised uuid source. -/

/-- Chat message author. -/
inductive Role where
  | user : Role
  | assistant : Role
  | system : Role
deriving DecidableEq

/-- A chat log entry. -/
structure ChatMessage where
  role : Role
  content : String
  timestamp : Int
deriving DecidableEq

/-- An inventory entry (also the payload of an `ADD_ITEM` command). -/
structure InventoryItem where
  id : String
  name : String
  description : String
  quantity : Int
deriving DecidableEq

/-- A known location (also the payload of a `SET_LOCATION` command). -/
structure Location where
  id : String
  name : String
  description : String
  visitedAt : Int
deriving DecidableEq

/-- A known character (also the payload of an `ADD_NPC` command). -/
structure NPC where
  id : String
  name : String
  description : String
  currentLocationId : Option String
  firstMetAt : Int
deriving DecidableEq

/-- A story event (also the payload of a `STORY_EVENT` command). -/
structure StoryEvent where
  id : String
  description : String
  timestamp : Int
  locationId : Option String := none
deriving DecidableEq

/-- Importance rank of a story fact. -/
inductive Importance where
  | critical : Importance
  | major : Importance
  | minor : Importance
deriving DecidableEq

/-- The `importanceOrder` table of `addStoryFact`. -/
def importanceOrder : Importance → Int
  | .critical => 0
  | .major => 1
  | .minor => 2

/-- A remembered story fact. -/
structure StoryFact where
  id : String
  fact : String
  importance : Importance
  timestamp : Int
deriving DecidableEq

/-- A journal entry. -/
structure JournalEntry where
  id : String
  title : String
  content : String
  timestamp : Int
deriving DecidableEq

/-- The persistent game state held by the store. -/
structure GameState where
  selectedModel : String := ""
  systemPrompt : String := ""
  chatHistory : List ChatMessage := []
  contextVector : Option (List Int) := none
  inventory : List InventoryItem := []
  locations : List Location := []
  currentLocationId : Option String := none
  npcs : List NPC := []
  storyEvents : List StoryEvent := []
  storyFacts : List StoryFact := []
  journal : List JournalEntry := []
deriving DecidableEq

/-- `MAX_CHAT_HISTORY`. -/
def MAX_CHAT_HISTORY : Nat := 50

/-- `addMessage`: append, then auto-trim to the last 50 when exceeding. -/
def addMessage (message : ChatMessage) (s : GameState) : GameState :=
  let newHistory := s.chatHistory ++ [message]
  if newHistory.length > MAX_CHAT_HISTORY then
    { s with chatHistory := jsSliceNeg MAX_CHAT_HISTORY newHistory }
  else
    { s with chatHistory := newHistory }

/-- `trimChatHistory`: when the log exceeds `maxMessages`, keep the
`slice(-maxMessages)` suffix and clear the context vector; otherwise the
state is returned unchanged. -/
def trimChatHistory (maxMessages : Nat) (s : GameState) : GameState :=
  if s.chatHistory.length > maxMessages then
    { s with chatHistory := jsSliceNeg maxMessages s.chatHistory, contextVector := none }
  else s

/-- `addItem`: merge quantities for an existing id, append otherwise. -/
def addItem (newItem : InventoryItem) (s : GameState) : GameState :=
  if s.inventory.any (fun i => i.id == newItem.id) then
    { s with inventory := s.inventory.map (fun i =>
        if i.id == newItem.id then { i with quantity := i.quantity + newItem.quantity } else i) }
  else
    { s with inventory := s.inventory ++ [newItem] }

/-- `removeItem` (`amount` defaults to 1 at call sites). -/
def removeItem (id : String) (amount : Int) (s : GameState) : GameState :=
  match s.inventory.find? (fun i => i.id == id) with
  | none => s
  | some existing =>
    if existing.quantity ≤ amount then
      { s with inventory := s.inventory.filter (fun i => i.id != id) }
    else
      { s with inventory := s.inventory.map (fun i =>
          if i.id == id then { i with quantity := i.quantity - amount } else i) }

/-- `addLocation`: keep the existing record when the id is known, append
otherwise; in both cases the location becomes current. -/
def addLocation (location : Location) (s : GameState) : GameState :=
  let exists_ := s.locations.any (fun l => l.id == location.id)
  { s with locations := if exists_ then s.locations else s.locations ++ [location],
           currentLocationId := some location.id }

/-- `addNpc`: update the location of an existing id, append otherwise. -/
def addNpc (npc : NPC) (s : GameState) : GameState :=
  if s.npcs.any (fun n => n.id == npc.id) then
    { s with npcs := s.npcs.map (fun n =>
        if n.id == npc.id then { n with currentLocationId := npc.currentLocationId } else n) }
  else
    { s with npcs := s.npcs ++ [npc] }

/-- `addStoryEvent`: append and keep only the last 10 events. -/
def addStoryEvent (event : StoryEvent) (s : GameState) : GameState :=
  { s with storyEvents := jsSliceNeg 10 (s.storyEvents ++ [event]) }

/-- Sort key order of the fact-eviction comparator:
importance order ascending, then timestamp ascending. -/
def factKeyLt (a b : StoryFact) : Prop :=
  importanceOrder a.importance < importanceOrder b.importance ∨
    (importanceOrder a.importance = importanceOrder b.importance ∧ a.timestamp < b.timestamp)

instance (a b : StoryFact) : Decidable (factKeyLt a b) := by
  unfold factKeyLt; infer_instance

/-- Stable insertion of a fact into an already sorted list: the new element
goes after every element strictly smaller in key order and before the first
element with an equal or greater key, preserving original order on ties. -/
def insertFact (x : StoryFact) : List StoryFact → List StoryFact
  | [] => [x]
  | y :: ys => if factKeyLt y x then y :: insertFact x ys else x :: y :: ys

/-- The comparator sort of `addStoryFact` (stable, ascending key order). -/
def sortFacts (l : List StoryFact) : List StoryFact := l.foldr insertFact []

/-- `addStoryFact`: drop case-insensitive duplicates, append, and on
exceeding 20 facts keep the first 20 after the comparator sort. -/
def addStoryFact (fact : String) (importance : Importance) (newId : String) (now : Int)
    (s : GameState) : GameState :=
  if s.storyFacts.any (fun f => lowerStr f.fact.data == lowerStr fact.data) then s
  else
    let newFact : StoryFact := ⟨newId, fact, importance, now⟩
    let newFacts := s.storyFacts ++ [newFact]
    if newFacts.length > 20 then
      { s with storyFacts := (sortFacts newFacts).take 20 }
    else
      { s with storyFacts := newFacts }

/-- The context-vector storing step at the end of `sendMessage`: a final
context shorter than 20000 elements is stored; one at least that long is
dropped (stored as absent) with only a console warning; no final context
leaves the stored vector unchanged. -/
def storeFinalContext (finalContext : Option (List Int)) (s : GameState) : GameState :=
  match finalContext with
  | some c =>
    if c.length < 20000 then { s with contextVector := some c }
    else { s with contextVector := none }
  | none => s

/-! ## Tag command parsing (`responseParser.ts`, `parseGameResponse`) -/

/-- A typed game-state command extracted from narrator text. -/
inductive Cmd where
  | addItemCmd (p : InventoryItem) : Cmd
  | setLocationCmd (p : Location) : Cmd
  | addNpcCmd (p : NPC) : Cmd
  | storyEventCmd (p : StoryEvent) : Cmd
  | storyFactCmd (fact : String) (importance : Importance) : Cmd
deriving DecidableEq

/-- Character class `[^|\]]`. -/
def notPipeBrk (c : Char) : Bool := ¬ (c = '|' ∨ c = ']')

/-- Character class `[^\]]`. -/
def notBrk (c : Char) : Bool := ¬ (c = ']')

/-- The `ITEM_ADD`/`ADD_ITEM` tag pattern. -/
def itemAddRE : RE := rcat [chr '[', .alt (liti "item_add") (liti "add_item"), wsStar, chr ':',
  wsStar, .grp 1 (plusL (.cls notPipeBrk)),
  optG (rcat [wsStar, chr '|', wsStar, .grp 2 (plusL (.cls notPipeBrk))]),
  optG (rcat [wsStar, chr '|', wsStar, .grp 3 (plusG (.cls Char.isDigit))]),
  wsStar, chr ']']

/-- The `LOCATION` tag pattern. -/
def locRE : RE := rcat [chr '[', liti "location", wsStar, chr ':', wsStar,
  .grp 1 (plusL (.cls notPipeBrk)),
  optG (rcat [wsStar, chr '|', wsStar, .grp 2 (plusL (.cls notBrk))]),
  wsStar, chr ']']

/-- The `NPC` tag pattern. -/
def npcRE : RE := rcat [chr '[', liti "npc", wsStar, chr ':', wsStar,
  .grp 1 (plusL (.cls notPipeBrk)),
  optG (rcat [wsStar, chr '|', wsStar, .grp 2 (plusL (.cls notPipeBrk))]),
  optG (rcat [wsStar, chr '|', wsStar, .grp 3 (plusL (.cls notBrk))]),
  wsStar, chr ']']

/-- The `EVENT` tag pattern. -/
def eventRE : RE := rcat [chr '[', liti "event", wsStar, chr ':', wsStar,
  .grp 1 (plusL (.cls notBrk)), wsStar, chr ']']

/-- Global `replace` with a callback, as used for the tag passes: find the
leftmost match, emit the callback's replacement (and possibly a command),
continue after the match. -/
def replaceAllAux (r : RE) (f : List Char → Caps → Option Cmd × List Char) :
    Nat → List Char → List Char × List Cmd
  | 0, s => (s, [])
  | fuel + 1, s =>
    match reSearch r s with
    | none => (s, [])
    | some (pre, matched, rest, cp) =>
      let (cmd, repl) := f matched cp
      let (tailText, cmds) := replaceAllAux r f fuel rest
      (pre ++ repl ++ tailText, (match cmd with | some c => [c] | none => []) ++ cmds)

/-- Entry point of the global replace. -/
def replaceAll (r : RE) (f : List Char → Caps → Option Cmd × List Char) (s : List Char) :
    List Char × List Cmd :=
  replaceAllAux r f (s.length + 1) s

/-- Callback of the `ITEM_ADD` pass: a whitespace-only name leaves the tag
in place; otherwise the tag is removed and an `ADD_ITEM` command pushed. -/
def itemTagCb (matched : List Char) (cp : Caps) : Option Cmd × List Char :=
  let name := cp.g1.getD []
  if jsTrim name = [] then (none, matched)
  else
    let nm := jsTrim name
    let desc := match cp.g2 with | some d => jsTrim d | none => "No description".data
    let qty := match cp.g3 with | some q => digitsToInt q | none => 1
    (some (.addItemCmd ⟨String.mk (slugify name), String.mk nm, String.mk desc, qty⟩), [])

/-- Callback of the `LOCATION` pass. -/
def locTagCb (now : Int) (matched : List Char) (cp : Caps) : Option Cmd × List Char :=
  let name := cp.g1.getD []
  if jsTrim name = [] then (none, matched)
  else
    let nm := jsTrim name
    let desc := match cp.g2 with | some d => jsTrim d | none => "Unknown location".data
    (some (.setLocationCmd ⟨String.mk (slugify name), String.mk nm, String.mk desc, now⟩), [])

/-- Callback of the `NPC` pass. -/
def npcTagCb (now : Int) (matched : List Char) (cp : Caps) : Option Cmd × List Char :=
  let name := cp.g1.getD []
  if jsTrim name = [] then (none, matched)
  else
    let nm := jsTrim name
    let locId := match cp.g2 with | some l => some (String.mk (slugify l)) | none => none
    let desc := match cp.g3 with | some d => jsTrim d | none => "A mysterious figure".data
    (some (.addNpcCmd ⟨String.mk (slugify name), String.mk nm, String.mk desc, locId, now⟩), [])

/-- Callback of the `EVENT` pass; the event id is filled in afterwards from
the uuid source. -/
def eventTagCb (now : Int) (matched : List Char) (cp : Caps) : Option Cmd × List Char :=
  let description := cp.g1.getD []
  if jsTrim description = [] then (none, matched)
  else (some (.storyEventCmd ⟨"", String.mk (jsTrim description), now, none⟩), [])

/-- Captures of every non-overlapping match, in document order (the
`exec` loop over a global pattern). -/
def allMatchesAux (r : RE) : Nat → List Char → List Caps
  | 0, _ => []
  | fuel + 1, s =>
    match reSearch r s with
    | none => []
    | some (_, _, rest, cp) => cp :: allMatchesAux r fuel rest

/-- Entry point of the `exec` loop. -/
def allMatches (r : RE) (s : List Char) : List Caps := allMatchesAux r (s.length + 1) s

/-- Captures of the first match only. -/
def firstMatch (r : RE) (s : List Char) : Option Caps :=
  (reSearch r s).map (fun x => x.2.2.2)

/-- Character class `[a-zA-Z\s-]` of the item fallback patterns. -/
def alphaWsDash (c : Char) : Bool := alphaB c ∨ c.isWhitespace ∨ c = '-'

/-- The optional article `(?:the\s+|a\s+|an\s+)?`, case-insensitive. -/
def theAnOpt : RE :=
  optG (ralt [rcat [liti "the", wsPlus], rcat [liti "a", wsPlus], rcat [liti "an", wsPlus]])

/-- The captured item name `([a-zA-Z][a-zA-Z\s-]\x7b2,30\x7d?)`. -/
def itemNameGrp : RE := .grp 1 (.cat (.cls alphaB) (repL 2 28 (.cls alphaWsDash)))

/-- First item fallback pattern (acquisition verbs). -/
def itemP1 : RE := rcat [liti "you", wsPlus,
  ralt [liti "pick up", liti "take", liti "grab", liti "pocket", liti "secure", liti "tuck",
    liti "slip", liti "obtain", liti "acquire", liti "receive"],
  wsPlus, theAnOpt, itemNameGrp,
  wsPlus, ralt [liti "and", liti "from", liti "into", chr ',', chr '.', .eos]]

/-- Second item fallback pattern (someone hands the player an item). -/
def itemP2 : RE := rcat [
  ralt [rcat [liti "hand", optG (liti "s"), liti " you"],
    rcat [liti "give", optG (liti "s"), liti " you"],
    rcat [liti "offer", optG (liti "s"), liti " you"]],
  wsPlus, theAnOpt, itemNameGrp,
  wsPlus, ralt [liti "and", chr ',', chr '.', .eos]]

/-- Third item fallback pattern (possession phrasing). -/
def itemP3 : RE := rcat [liti "you now ", ralt [liti "have", liti "hold", liti "carry"],
  wsPlus, theAnOpt, itemNameGrp, ralt [wsC, chr ',', chr '.', .eos]]

/-- Exclusion vocabulary of the item fallback. -/
def itemExclude : List (List Char) :=
  ["moment", "breath", "step", "steps", "look", "hand", "hands", "air", "door", "room",
    "shadow", "shadows", "fog", "mist", "time", "place", "way"].map String.data

/-- Item fallback: all matches of all three patterns, filtered by length,
exclusion vocabulary and previously seen lowercased names. -/
def itemFallback (text : List Char) : List Cmd :=
  let step := fun (st : List (List Char) × List Cmd) (cp : Caps) =>
    let itemName := jsTrim (cp.g1.getD [])
    let low := lowerStr itemName
    if itemName.length > 2 ∧ ¬ itemExclude.contains low ∧ ¬ st.1.contains low then
      (st.1 ++ [low], st.2 ++ [.addItemCmd
        ⟨String.mk (hyphenateWs low), String.mk itemName, "Acquired during adventure", 1⟩])
    else st
  ((allMatches itemP1 text ++ allMatches itemP2 text ++ allMatches itemP3 text).foldl
    step ([], [])).2

/-- Character class `[A-Z]` (case-sensitive). -/
def upperB (c : Char) : Bool := 'A' ≤ c ∧ c ≤ 'Z'

/-- Character class `[A-Z]` under the case-insensitive flag. -/
def upperI (c : Char) : Bool := upperB c ∨ ('a' ≤ c ∧ c ≤ 'z')

/-- Character class `[a-zA-Z\s'-]` of the location fallback patterns. -/
def locNameC (c : Char) : Bool := alphaB c ∨ c.isWhitespace ∨ c = '\'' ∨ c = '-'

/-- The terminator `(?:\.|,|—|$)` of the location fallback patterns. -/
def locEnder : RE := ralt [chr '.', chr ',', chr '—', .eos]

/-- Case-sensitive variant of the optional article. -/
def theAnOptCS : RE :=
  optG (ralt [rcat [lit "the", wsPlus], rcat [lit "a", wsPlus], rcat [lit "an", wsPlus]])

/-- Captured location name `([A-Z][a-zA-Z\s'-]\x7b2,40\x7d?)`. -/
def locNameGrp : RE := .grp 1 (.cat (.cls upperB) (repL 2 38 (.cls locNameC)))

/-- First location fallback pattern (arrival phrasing, case-sensitive). -/
def locP1 : RE := rcat [lit "you", wsPlus,
  ralt [lit "arrive at", lit "enter", lit "reach", lit "step into", lit "step inside",
    rcat [lit "find yourself ", .alt (lit "in") (lit "at")]],
  wsPlus, theAnOptCS, locNameGrp, locEnder]

/-- Second location fallback pattern (presence phrasing, case-sensitive). -/
def locP2 : RE := rcat [ralt [lit "standing", lit "sitting", lit "waiting"], wsPlus,
  ralt [lit "in", lit "at", lit "inside"], wsPlus, theAnOptCS, locNameGrp, locEnder]

/-- Third location fallback pattern (gates and doors, case-insensitive). -/
def locP3 : RE := rcat [liti "the", wsPlus,
  ralt [rcat [liti "door", optG (liti "s")], rcat [liti "gate", optG (liti "s")],
    liti "entrance"],
  wsPlus, .alt (liti "of") (liti "to"), wsPlus, optG (rcat [liti "the", wsPlus]),
  .grp 1 (.cat (.cls upperI) (repL 2 38 (.cls locNameC))),
  wsPlus, ralt [liti "open", liti "close", liti "swing"]]

/-- Exclusion vocabulary of the location fallback. -/
def locExclude : List (List Char) :=
  ["moment", "darkness", "void", "nothing", "something", "everything"].map String.data

/-- Location fallback: take the first acceptable match, scanning the three
patterns in order; at most one inferred location per response. -/
def locFallback (now : Int) (text : List Char) : List Cmd :=
  let tryPat := fun (cpo : Option Caps) =>
    match cpo with
    | none => none
    | some cp =>
      let locName := jsTrim (cp.g1.getD [])
      if locName.length > 2 ∧ ¬ locExclude.contains (lowerStr locName) then
        some (Cmd.setLocationCmd
          ⟨String.mk (hyphenateWs (lowerStr locName)), String.mk locName,
            "Discovered location", now⟩)
      else none
  match tryPat (firstMatch locP1 text) with
  | some c => [c]
  | none =>
    match tryPat (firstMatch locP2 text) with
    | some c => [c]
    | none =>
      match tryPat (firstMatch locP3 text) with
      | some c => [c]
      | none => []

/-- Character class `[^"'.!?]`. -/
def factC1 (c : Char) : Bool := ¬ (c = '"' ∨ c = '\'' ∨ c = '.' ∨ c = '!' ∨ c = '?')

/-- Character class `[^"']`. -/
def factC2 (c : Char) : Bool := ¬ (c = '"' ∨ c = '\'')

/-- Character class `[^.!?]`. -/
def factC3 (c : Char) : Bool := ¬ (c = '.' ∨ c = '!' ∨ c = '?')

/-- A single quote character, `["']`. -/
def quoteC : RE := .cls (fun c => c = '"' ∨ c = '\'')

/-- First fact pattern (discovery phrasing). -/
def factP1 : RE := rcat [
  ralt [
    rcat [liti "you", wsPlus,
      ralt [liti "discover", liti "learn", liti "realize", liti "find out", liti "uncover"]],
    rcat [liti "reveal", optG (liti "s")],
    rcat [liti "it", wsPlus, ralt [liti "says", liti "reads", liti "mentions"]],
    rcat [liti "the", wsPlus,
      ralt [liti "note", liti "letter", liti "message", liti "book", liti "tome"],
      wsPlus, ralt [liti "says", liti "reads", liti "mentions", liti "reveals"]]],
  wsPlus, optG (rcat [liti "that", wsPlus]), optG quoteC,
  .grp 1 (repG 15 85 (.cls factC1))]

/-- Second fact pattern (quoted writing). -/
def factP2 : RE := rcat [quoteC, .grp 1 (repG 20 60 (.cls factC2)), quoteC, wsStar,
  .alt (liti "is") (liti "was"), wsPlus, liti "written"]

/-- Third fact pattern (secret features). -/
def factP3 : RE := rcat [
  ralt [liti "secret", liti "hidden", liti "ancient", liti "mysterious"], wsPlus,
  ralt [liti "passage", liti "chamber", liti "room", liti "artifact", liti "relic"], wsPlus,
  ralt [liti "is", liti "was", liti "has been", rcat [liti "contain", optG (liti "s")]],
  wsPlus, .grp 1 (repG 10 50 (.cls factC3))]

/-- Fact auto-extraction: every match of the three patterns whose trimmed
capture is strictly between 15 and 100 characters long. -/
def factExtract (text : List Char) : List Cmd :=
  ([factP1, factP2, factP3].flatMap (fun p => allMatches p text)).filterMap (fun cp =>
    let fact := jsTrim (cp.g1.getD [])
    if fact.length > 15 ∧ fact.length < 100 then
      some (.storyFactCmd (String.mk fact) .major)
    else none)

/-- Is this an `ADD_ITEM` command? -/
def isAddItem : Cmd → Bool
  | .addItemCmd _ => true
  | _ => false

/-- Is this a `SET_LOCATION` command? -/
def isSetLocation : Cmd → Bool
  | .setLocationCmd _ => true
  | _ => false

/-- `parseGameResponse`: run the four tag passes, then the per-category
fallbacks and the unconditional fact extraction; return the trimmed clean
text with the commands in extraction order.  `now` stands for `Date.now()`
and `uuid` for the `crypto.randomUUID()` draws of the event pass. -/
def parseGameResponse (now : Int) (uuid : Nat → String) (text : List Char) :
    List Char × List Cmd :=
  let r1 := replaceAll itemAddRE itemTagCb text
  let r2 := replaceAll locRE (locTagCb now) r1.1
  let r3 := replaceAll npcRE (npcTagCb now) r2.1
  let r4 := replaceAll eventRE (eventTagCb now) r3.1
  let evCmds := r4.2.enum.map (fun p =>
    match p.2 with
    | Cmd.storyEventCmd e => Cmd.storyEventCmd { e with id := uuid p.1 }
    | c => c)
  let tagCmds := r1.2 ++ r2.2 ++ r3.2 ++ evCmds
  let fbItems := if tagCmds.any isAddItem then [] else itemFallback r4.1
  let cmds2 := tagCmds ++ fbItems
  let fbLoc := if cmds2.any isSetLocation then [] else locFallback now r4.1
  (jsTrim r4.1, cmds2 ++ fbLoc ++ factExtract r4.1)

/-! ## Movement intent detection (`useGameMessages.ts`) -/

/-- The destination-extraction pattern of `detectMovementIntent`. -/
def destRE : RE := rcat [
  ralt [liti "go", liti "head", liti "travel", liti "walk", liti "run", liti "return",
    liti "arrive", liti "visit", liti "get"],
  wsPlus,
  optG (ralt [liti "to", liti "at", liti "back to"]),
  wsStar,
  optG (rcat [liti "the", wsPlus]),
  .grp 1 (plusL dotC),
  ralt [rcat [wsPlus, liti "to", wsPlus, liti "see"], rcat [wsPlus, liti "to", wsPlus, liti "meet"],
    rcat [wsPlus, liti "to", wsPlus, liti "find"], .eos]]

/-- The six arrival patterns, all anchored at the start. -/
def arrivalPatterns : List RE := [
  rcat [liti "i", wsPlus, liti "arrive"],
  rcat [liti "i", wsPlus, liti "enter"],
  rcat [liti "i", wsPlus, liti "reach"],
  rcat [liti "i", wsPlus, liti "get", wsPlus, liti "to"],
  rcat [liti "i", .alt (liti "'m") (liti " am"), wsPlus,
    ralt [liti "at", liti "inside", liti "there"]],
  rcat [liti "i", wsPlus, liti "step", wsPlus, .alt (liti "into") (liti "inside")]]

/-- Word character `\w`. -/
def wordC (c : Char) : Bool := alphaB c ∨ c.isDigit ∨ c = '_'

/-- The anchored movement patterns (all but the unanchored "need to" one). -/
def movementPatternsAnchored : List RE := [
  rcat [liti "i", wsPlus,
    ralt [liti "go", liti "head", liti "travel", liti "walk", liti "run", liti "return",
      liti "leave", liti "exit", liti "depart", liti "move"],
    wsPlus,
    ralt [liti "to", rcat [liti "toward", optG (liti "s")], liti "back", liti "home", liti "for"]],
  rcat [liti "i", wsPlus, ralt [liti "go", liti "head", liti "walk", liti "run"], wsPlus,
    plusG (.cls wordC)],
  rcat [ralt [rcat [liti "let", optG (liti "'"), optG (liti "s")], liti "we"], wsPlus,
    ralt [liti "go", liti "head", liti "travel", liti "leave", liti "return"]],
  rcat [ralt [liti "going", liti "heading", liti "leaving", liti "returning"], wsPlus,
    ralt [liti "to", liti "home", liti "back"]],
  liti "take me to",
  liti "bring me to",
  rcat [liti "i want to ", ralt [liti "go", liti "leave", liti "return", liti "head", liti "visit"]],
  rcat [liti "i", .alt (liti "'d") (liti " would"), liti " like to ",
    ralt [liti "go", liti "leave", liti "return", liti "visit"]],
  ralt [liti "off to", liti "back to", liti "home to"],
  liti "go to",
  rcat [liti "i", wsPlus, ralt [liti "need", liti "must", liti "have"], wsPlus, liti "to",
    wsPlus, ralt [liti "go", liti "visit", liti "see", liti "get"]]]

/-- The unanchored movement pattern `need to (visit|go|see|meet)`. -/
def needToRE : RE := rcat [liti "need to ", ralt [liti "visit", liti "go", liti "see", liti "meet"]]

/-- The home-travel pattern (unanchored). -/
def homeRE : RE := rcat [
  ralt [liti "go", liti "head", liti "travel", liti "return", liti "leave", liti "visit"],
  wsPlus, optG (rcat [liti "to", wsPlus]), liti "my", wsPlus,
  ralt [liti "home", liti "apartment", liti "house", liti "room", liti "place"]]

/-- Does some arrival pattern accept the normalized input? -/
def arrivalAny (lowerInput : List Char) : Bool :=
  arrivalPatterns.any (fun p => reTestAt0 p lowerInput)

/-- Does some movement pattern accept the normalized input? -/
def movementAny (lowerInput : List Char) : Bool :=
  movementPatternsAnchored.any (fun p => reTestAt0 p lowerInput) || reTest needToRE lowerInput

/-- The arrival directive emitted for a detected arrival. -/
def arrivalDirective (destination : String) : String :=
  "\n\n[ARRIVAL COMMAND - The player has ARRIVED. You MUST describe them being INSIDE " ++
    destination ++ " NOW. Start your response with them already at the new location. " ++
    "Use [LOCATION: " ++ destination ++ "|Description]. " ++
    "Do NOT describe traveling or leaving - they are ALREADY THERE.]"

/-- The movement directive emitted for a detected travel request. -/
def movementDirective (destination : String) : String :=
  "\n\n[MOVEMENT COMMAND - COMPLETE THE JOURNEY IN THIS RESPONSE!\n" ++
    "You MUST:\n1. One brief travel sentence (MAXIMUM)\n" ++
    "2. Describe player ARRIVING and being INSIDE " ++ destination ++ "\n" ++
    "3. Use [LOCATION: " ++ destination ++ "|Description] tag\n" ++
    "4. Describe the NEW location's interior/details\n" ++
    "5. DO NOT end with fog, traveling, or suspense - they ARRIVE NOW!\n" ++
    "FORBIDDEN: Ending response with player still outside or traveling.]"

/-- The home-travel directive. -/
def homeDirective : String :=
  "\n\n[MOVEMENT TO HOME - Describe arrival at their home. " ++
    "Use [LOCATION: Player's Home|Description]. They ARRIVE in this response.]"

/-- Extracted destination, defaulting to "their destination". -/
def detectDestination (lowerInput : List Char) : String :=
  match reSearch destRE lowerInput with
  | some (_, _, _, cp) =>
    match cp.g1 with
    | some d => String.mk (jsTrim d)
    | none => "their destination"
  | none => "their destination"

/-- `detectMovementIntent`: lowercase and trim the input, extract the
destination, then try arrival patterns, movement patterns and the
home-travel pattern in that order. -/
def detectMovementIntent (input : String) : String :=
  let lowerInput := jsTrim (lowerStr input.data)
  let destination := detectDestination lowerInput
  if arrivalAny lowerInput then arrivalDirective destination
  else if movementAny lowerInput then movementDirective destination
  else if reTest homeRE lowerInput then homeDirective
  else ""

/-! ## Concrete states and inputs used by the verification -/

/-- A fresh game state (all collections empty). -/
def blankState : GameState := {}

/-- The critical fact of the eviction scenario. -/
def critFact : StoryFact := ⟨"c", "the critical fact", .critical, 0⟩

/-- The `k`-th minor fact of the eviction scenario; later `k`, later
timestamp. -/
def mkMinor (k : Nat) : StoryFact := ⟨"", "fact" ++ toString k, .minor, (k : Int)⟩

/-- Twenty pre-existing facts: one critical and the 19 minors with
timestamps 1 to 19. -/
def evictPreFacts : List StoryFact := critFact :: (List.range 19).map (fun k => mkMinor (k + 1))

/-- State holding the twenty pre-existing facts. -/
def evictPreState : GameState := { storyFacts := evictPreFacts }

/-- The two structured messages of the stream-splitting scenario. -/
def msgA : Json := .obj [(['a'], .num ['1'])]

/-- Second message of the stream-splitting scenario. -/
def msgB : Json := .obj [(['b'], .num ['2'])]

/-- The unsplit two-message text. -/
def wholeText : List Char := ['{', '"', 'a', '"', ':', '1', '}', '{', '"', 'b', '"', ':', '2', '}']

/-- First fragment of the split, ending inside the string literal "a". -/
def splitFrag1 : List Char := ['{', '"', 'a']

/-- Second fragment of the split. -/
def splitFrag2 : List Char := ['"', ':', '1', '}', '{', '"', 'b', '"', ':', '2', '}']

/-! ## Claim C1 -/

/-- C1 (code evidence): `addStoryFact` on twenty existing facts (one
critical, nineteen minors with timestamps 1..19) plus a new minor fact with
timestamp 20 keeps the OLDEST nineteen minors: the stored facts are exactly
the pre-existing twenty, the new fact (the most recent minor) is evicted
immediately, and the oldest minor survives — the opposite of the claimed
"retain the 19 most recent minors, drop the oldest". -/
theorem C1_eviction_drops_newest_minor :
    (addStoryFact "fact20" .minor "n" 20 evictPreState).storyFacts = evictPreFacts ∧
    mkMinor 1 ∈ (addStoryFact "fact20" .minor "n" 20 evictPreState).storyFacts ∧
    ∀ f ∈ (addStoryFact "fact20" .minor "n" 20 evictPreState).storyFacts, f.fact ≠ "fact20" := by
  decide

/-! ## Claim C2 -/

/-- C2 (code evidence): the stream decoder yields both messages when the
two-message text arrives in one fragment, but yields nothing when the same
text is split inside the string literal `"a"` — the buffer is re-scanned
from index zero with the previous scan state, so the split perturbs the
string and depth tracking and the final whole-buffer parse fails on the
two concatenated messages. -/
theorem C2_decoder_split_loses_messages :
    splitFrag1 ++ splitFrag2 = wholeText ∧
    decodeStream [wholeText] = [msgA, msgB] ∧
    decodeStream [splitFrag1, splitFrag2] = [] :=
  ⟨rfl, rfl, rfl⟩

/-! ## Claim C4 -/

/-- C4: the final-context storing step keeps a token only when its length
is under 20000; a token at least that long is stored as absent; a stored
token is always exactly the offered token (never truncated); in particular
a 25000-element token is stored as absent. -/
theorem C4_context_token_ceiling (c : List Int) (s : GameState) :
    (c.length < 20000 → (storeFinalContext (some c) s).contextVector = some c) ∧
    (20000 ≤ c.length → (storeFinalContext (some c) s).contextVector = none) ∧
    (∀ c', (storeFinalContext (some c) s).contextVector = some c' → c' = c) ∧
    (c.length = 25000 → (storeFinalContext (some c) s).contextVector = none) := by
  unfold storeFinalContext
  dsimp only
  by_cases h : c.length < 20000
  · rw [if_pos h]
    exact ⟨fun _ => rfl, fun hge => absurd h (by omega), fun c' hc => by
      injection hc with h'
      exact h'.symm, fun h25 => absurd h (by omega)⟩
  · rw [if_neg h]
    exact ⟨fun hlt => absurd hlt h, fun _ => rfl, fun c' hc => by simp at hc, fun _ => rfl⟩

/-- C4 witness: a concrete 25000-element token is stored as absent. -/
theorem C4_context_token_ceiling_witness :
    (storeFinalContext (some (List.replicate 25000 (0 : Int))) blankState).contextVector = none :=
  (C4_context_token_ceiling (List.replicate 25000 (0 : Int)) blankState).2.2.2
    (by rw [List.length_replicate])

/-! ## Claim C5 -/

/-- The single chat message of the trim counterexample. -/
def trimMsg : ChatMessage := ⟨.user, "hi", 0⟩

/-- State of the trim counterexample: one message, a context vector
present. -/
def trimState : GameState := { chatHistory := [trimMsg], contextVector := some [1] }

/-- C5 counterexample: trimming a one-message log to five messages leaves
the state untouched, so the continuation token is NOT cleared; and trimming
to zero messages does not truncate the log at all (`slice(-0)` keeps
everything).  Both contradict "for every state ... leaves the continuation
token cleared" and "chat log equal to its most recent maxMessages". -/
theorem C5_trim_counterexample :
    (trimChatHistory 5 trimState = trimState ∧
      (trimChatHistory 5 trimState).contextVector = some [1]) ∧
    ((trimChatHistory 0 trimState).chatHistory = [trimMsg] ∧
      (trimChatHistory 0 trimState).chatHistory ≠ []) := by
  decide

/-- C5 (amended): when the log holds at most `maxMessages` messages the
state (including the continuation token) is unchanged; when it exceeds
`maxMessages` and `maxMessages` is positive, the log becomes its most
recent `maxMessages` messages, the continuation token is cleared, and every
other field is unchanged. -/
theorem C5_trim_spec (s : GameState) (maxMessages : Nat) :
    (s.chatHistory.length ≤ maxMessages → trimChatHistory maxMessages s = s) ∧
    (0 < maxMessages → maxMessages < s.chatHistory.length →
      (trimChatHistory maxMessages s).chatHistory = takeRight maxMessages s.chatHistory ∧
      (trimChatHistory maxMessages s).chatHistory.length = maxMessages ∧
      (trimChatHistory maxMessages s).contextVector = none ∧
      (trimChatHistory maxMessages s).inventory = s.inventory ∧
      (trimChatHistory maxMessages s).locations = s.locations ∧
      (trimChatHistory maxMessages s).npcs = s.npcs ∧
      (trimChatHistory maxMessages s).storyEvents = s.storyEvents ∧
      (trimChatHistory maxMessages s).storyFacts = s.storyFacts ∧
      (trimChatHistory maxMessages s).journal = s.journal) := by
  constructor
  · intro hle
    unfold trimChatHistory
    rw [if_neg (by omega)]
  · intro hpos hgt
    unfold trimChatHistory jsSliceNeg
    rw [if_pos (by omega), if_neg (by omega)]
    refine ⟨rfl, ?_, rfl, rfl, rfl, rfl, rfl, rfl, rfl⟩
    simp only [takeRight, List.length_drop]
    omega

/-- Three-message state with a context vector, used by the C5 witness. -/
def trimState3 : GameState :=
  { chatHistory := [trimMsg, ⟨.assistant, "a", 1⟩, ⟨.user, "b", 2⟩],
    contextVector := some [7] }

/-- C5 witness: trimming a three-message log to two clears the token, and
trimming it to three leaves the state alone. -/
theorem C5_trim_spec_witness :
    (trimChatHistory 2 trimState3).contextVector = none ∧
    trimChatHistory 3 trimState3 = trimState3 :=
  ⟨((C5_trim_spec trimState3 2).2 (by decide) (by decide)).2.2.1,
    (C5_trim_spec trimState3 3).1 (by decide)⟩

/-! ## Claim C6 -/

/-- C6: recording a location always makes it current; a known id leaves the
location collection (hence the existing record) untouched, a new id is
appended; every other field of the state is unchanged. -/
theorem C6_add_location_spec (s : GameState) (loc : Location) :
    (addLocation loc s).currentLocationId = some loc.id ∧
    (s.locations.any (fun l => l.id == loc.id) = true →
      (addLocation loc s).locations = s.locations) ∧
    (s.locations.any (fun l => l.id == loc.id) = false →
      (addLocation loc s).locations = s.locations ++ [loc]) ∧
    (addLocation loc s).chatHistory = s.chatHistory ∧
    (addLocation loc s).contextVector = s.contextVector ∧
    (addLocation loc s).inventory = s.inventory ∧
    (addLocation loc s).npcs = s.npcs ∧
    (addLocation loc s).storyEvents = s.storyEvents ∧
    (addLocation loc s).storyFacts = s.storyFacts ∧
    (addLocation loc s).journal = s.journal ∧
    (addLocation loc s).selectedModel = s.selectedModel ∧
    (addLocation loc s).systemPrompt = s.systemPrompt := by
  unfold addLocation
  refine ⟨rfl, fun h => ?_, fun h => ?_, rfl, rfl, rfl, rfl, rfl, rfl, rfl, rfl, rfl⟩
  · simp only [h, if_pos]
  · simp only [h, Bool.false_eq_true, if_neg, ite_false]

/-- C6 witness: re-recording the known id "tavern" (with different details)
leaves the collection unchanged but re-selects it as current, and recording
the new id "forest" appends it. -/
theorem C6_add_location_spec_witness :
    (addLocation ⟨"tavern", "Tavern2", "other", 9⟩
        { locations := [⟨"tavern", "Tavern", "cozy", 1⟩] } : GameState).locations
      = [⟨"tavern", "Tavern", "cozy", 1⟩] ∧
    (addLocation ⟨"tavern", "Tavern2", "other", 9⟩
        { locations := [⟨"tavern", "Tavern", "cozy", 1⟩] } : GameState).currentLocationId
      = some "tavern" ∧
    (addLocation ⟨"forest", "Forest", "dark", 9⟩
        { locations := [⟨"tavern", "Tavern", "cozy", 1⟩] } : GameState).locations
      = [⟨"tavern", "Tavern", "cozy", 1⟩, ⟨"forest", "Forest", "dark", 9⟩] :=
  ⟨(C6_add_location_spec _ _).2.1 (by decide),
    (C6_add_location_spec _ _).1,
    (C6_add_location_spec _ _).2.2.1 (by decide)⟩

/-! ## Claim C7 -/

/-- `addMessage` always leaves the log equal to the last 50 of the old log
plus the new message. -/
theorem addMessage_chatHistory (m : ChatMessage) (s : GameState) :
    (addMessage m s).chatHistory = takeRight 50 (s.chatHistory ++ [m]) := by
  unfold addMessage jsSliceNeg takeRight MAX_CHAT_HISTORY
  by_cases h : (s.chatHistory ++ [m]).length > 50
  · rw [if_pos h, if_neg (by omega)]
  · rw [if_neg h, Nat.sub_eq_zero_of_le (by omega), List.drop_zero]

/-- The log never exceeds 50 messages after `addMessage`. -/
theorem addMessage_length_le (m : ChatMessage) (s : GameState) :
    (addMessage m s).chatHistory.length ≤ 50 := by
  rw [addMessage_chatHistory]
  simp only [takeRight, List.length_drop]
  omega

/-- Retaking the last `n` elements after appending more text is the same as
taking the last `n` of the full concatenation. -/
theorem takeRight_append_takeRight (n : Nat) (l l₂ : List α) :
    takeRight n (takeRight n l ++ l₂) = takeRight n (l ++ l₂) := by
  unfold takeRight
  rw [← List.drop_append_of_le_length (Nat.sub_le l.length n), List.drop_drop]
  congr 1
  simp only [List.length_append, List.length_drop]
  omega

/-- Folding `addMessage` over a message list from a within-cap state leaves
the log equal to the last 50 of everything appended. -/
theorem foldl_addMessage (msgs : List ChatMessage) (s : GameState)
    (hs : s.chatHistory.length ≤ 50) :
    (msgs.foldl (fun st m => addMessage m st) s).chatHistory
      = takeRight 50 (s.chatHistory ++ msgs) := by
  induction msgs generalizing s with
  | nil =>
    simp only [List.foldl_nil, List.append_nil, takeRight,
      Nat.sub_eq_zero_of_le hs, List.drop_zero]
  | cons m ms ih =>
    rw [List.foldl_cons, ih (addMessage m s) (addMessage_length_le m s),
      addMessage_chatHistory, takeRight_append_takeRight]
    simp

/-- C7: after each bounded-collection mutation from a state within its caps
the cap holds again — the chat log stays at ≤ 50, the story events at ≤ 10
and the story facts at ≤ 20 — and 60 sequential `addMessage` calls starting
from an empty log leave exactly the last 50 messages. -/
theorem C7_bounded_collections (s s₀ : GameState) (msg : ChatMessage) (ev : StoryEvent)
    (fact : String) (imp : Importance) (fid : String) (ts : Int)
    (msgs : List ChatMessage) (hfacts : s.storyFacts.length ≤ 20)
    (hs₀ : s₀.chatHistory = []) (hn : msgs.length = 60) :
    (addMessage msg s).chatHistory.length ≤ 50 ∧
    (addStoryEvent ev s).storyEvents.length ≤ 10 ∧
    (addStoryFact fact imp fid ts s).storyFacts.length ≤ 20 ∧
    (msgs.foldl (fun st m => addMessage m st) s₀).chatHistory = msgs.drop 10 := by
  refine ⟨addMessage_length_le msg s, ?_, ?_, ?_⟩
  · unfold addStoryEvent jsSliceNeg
    rw [if_neg (by omega)]
    simp only [List.length_drop]
    omega
  · unfold addStoryFact
    by_cases hdup : s.storyFacts.any (fun f => lowerStr f.fact.data == lowerStr fact.data)
    · rw [if_pos hdup]
      exact hfacts
    · rw [if_neg hdup]
      by_cases hlen : (s.storyFacts ++ [(⟨fid, fact, imp, ts⟩ : StoryFact)]).length > 20
      · rw [if_pos hlen]
        simp

      · rw [if_neg hlen]
        simp only [List.length_append, List.length_singleton] at hlen ⊢
        omega
  · rw [foldl_addMessage msgs s₀ (by rw [hs₀]; simp), hs₀, List.nil_append, takeRight, hn]

/-- Message used by the C7 witness. -/
def wMsg : ChatMessage := ⟨.user, "w", 0⟩

/-- C7 witness: from the blank state, 60 appends of a concrete message
leave the last 50, and the single-mutation caps hold concretely. -/
theorem C7_bounded_collections_witness :
    (addMessage wMsg blankState).chatHistory.length ≤ 50 ∧
    ((List.replicate 60 wMsg).foldl (fun st m => addMessage m st) blankState).chatHistory
      = (List.replicate 60 wMsg).drop 10 :=
  ⟨(C7_bounded_collections blankState blankState wMsg ⟨"", "", 0, none⟩ "" .minor "" 0
      (List.replicate 60 wMsg) (by decide) (by decide) (by simp)).1,
    (C7_bounded_collections blankState blankState wMsg ⟨"", "", 0, none⟩ "" .minor "" 0
      (List.replicate 60 wMsg) (by decide) (by decide) (by simp)).2.2.2⟩

/-! ## Claim C9 -/

/-- The AddItem payload of the C9 scenario. -/
def torchOne : InventoryItem := ⟨"torch", "Torch", "a torch", 1⟩

/-- An inventory that already holds five torches. -/
def torchState : GameState := { inventory := [⟨"torch", "Torch", "a torch", 5⟩] }

/-- C9 counterexample: the claim quantifies over ANY inventory, but from an
inventory already holding a torch entry of quantity 5, applying the
torch AddItem twice ends with quantity 7, not 2. -/
theorem C9_double_add_counterexample :
    (addItem torchOne (addItem torchOne torchState)).inventory
      = [⟨"torch", "Torch", "a torch", 7⟩] ∧
    ∀ e ∈ (addItem torchOne (addItem torchOne torchState)).inventory, e.quantity ≠ 2 := by
  decide

/-- Elementwise-fixed maps are the identity. -/
theorem map_eq_self_of_forall {l : List α} {f : α → α} (h : ∀ a ∈ l, f a = a) :
    l.map f = l := by
  induction l with
  | nil => rfl
  | cons x xs ih =>
    simp only [List.map_cons, h x (by simp)]
    rw [ih (fun a ha => h a (by simp [ha]))]

/-- C9 (amended): from an inventory with no torch entry, applying the
torch AddItem of quantity one twice in two separate calls appends a single
torch entry whose quantity is 2, leaving every other entry unchanged. -/
theorem C9_double_add_spec (s : GameState) (nm ds : String)
    (h : ∀ i ∈ s.inventory, i.id ≠ "torch") :
    (addItem ⟨"torch", nm, ds, 1⟩ (addItem ⟨"torch", nm, ds, 1⟩ s)).inventory
      = s.inventory ++ [⟨"torch", nm, ds, 2⟩] := by
  have hany : s.inventory.any (fun i => i.id == "torch") = false := by
    simp only [List.any_eq_false, beq_iff_eq]
    exact h
  unfold addItem
  simp only [hany, Bool.false_eq_true, if_false]
  have hany2 : (s.inventory ++ [(⟨"torch", nm, ds, 1⟩ : InventoryItem)]).any
      (fun i => i.id == "torch") = true := by
    simp
  simp only [hany2, if_true, List.map_append]
  rw [map_eq_self_of_forall (fun a ha => by
    have := h a ha
    simp only [beq_iff_eq]
    rw [if_neg this])]
  simp

/-- C9 witness: from the blank inventory the double add yields exactly one
torch entry of quantity 2. -/
theorem C9_double_add_spec_witness :
    (addItem ⟨"torch", "Torch", "a torch", 1⟩
        (addItem ⟨"torch", "Torch", "a torch", 1⟩ blankState)).inventory
      = [⟨"torch", "Torch", "a torch", 2⟩] := by
  rw [C9_double_add_spec blankState "Torch" "a torch" (by decide)]
  rfl

/-! ## Claim C10 -/

/-- C10: `removeItem` is total and, in every case, only the inventory can
change; an unknown id leaves the whole state unchanged; when the found
entry's quantity is at most `amount` every entry with that id is removed
outright (none is left at zero or negative quantity) and other entries are
untouched in order; otherwise entries with that id lose exactly `amount`
and all others are unchanged. -/
theorem C10_remove_item_spec (s : GameState) (id : String) (amount : Int) :
    ((removeItem id amount s).chatHistory = s.chatHistory ∧
      (removeItem id amount s).contextVector = s.contextVector ∧
      (removeItem id amount s).locations = s.locations ∧
      (removeItem id amount s).currentLocationId = s.currentLocationId ∧
      (removeItem id amount s).npcs = s.npcs ∧
      (removeItem id amount s).storyEvents = s.storyEvents ∧
      (removeItem id amount s).storyFacts = s.storyFacts ∧
      (removeItem id amount s).journal = s.journal ∧
      (removeItem id amount s).selectedModel = s.selectedModel ∧
      (removeItem id amount s).systemPrompt = s.systemPrompt) ∧
    (s.inventory.find? (fun i => i.id == id) = none → removeItem id amount s = s) ∧
    (∀ e, s.inventory.find? (fun i => i.id == id) = some e → e.quantity ≤ amount →
      (removeItem id amount s).inventory = s.inventory.filter (fun i => i.id != id) ∧
      ∀ j ∈ (removeItem id amount s).inventory, j.id ≠ id) ∧
    (∀ e, s.inventory.find? (fun i => i.id == id) = some e → amount < e.quantity →
      (removeItem id amount s).inventory = s.inventory.map (fun i =>
        if i.id == id then { i with quantity := i.quantity - amount } else i)) := by
  unfold removeItem
  cases hfind : s.inventory.find? (fun i => i.id == id) with
  | none =>
    exact ⟨⟨rfl, rfl, rfl, rfl, rfl, rfl, rfl, rfl, rfl, rfl⟩, fun _ => rfl,
      fun e he => by simp at he, fun e he => by simp at he⟩
  | some e0 =>
    dsimp only
    by_cases hq : e0.quantity ≤ amount
    · rw [if_pos hq]
      refine ⟨⟨rfl, rfl, rfl, rfl, rfl, rfl, rfl, rfl, rfl, rfl⟩,
        fun hnone => by simp at hnone, fun e he hle => ⟨rfl, ?_⟩,
        fun e he hlt => by
          have : e = e0 := by injection he with h'; exact h'.symm
          subst this
          omega⟩
      intro j hj
      have := List.of_mem_filter hj
      simpa [bne_iff_ne] using this
    · rw [if_neg hq]
      refine ⟨⟨rfl, rfl, rfl, rfl, rfl, rfl, rfl, rfl, rfl, rfl⟩,
        fun hnone => by simp at hnone,
        fun e he hle => by
          have : e = e0 := by injection he with h'; exact h'.symm
          subst this
          omega,
        fun e he hlt => rfl⟩

/-- C10 witness: with three torches, removing one leaves two; removing an
unknown id changes nothing; removing five from a two-torch entry deletes
the entry. -/
theorem C10_remove_item_spec_witness :
    (removeItem "torch" 1 { inventory := [⟨"torch", "Torch", "a torch", 3⟩] } :
        GameState).inventory = [⟨"torch", "Torch", "a torch", 2⟩] ∧
    removeItem "lamp" 1 ({ inventory := [⟨"torch", "Torch", "a torch", 3⟩] } : GameState)
      = { inventory := [⟨"torch", "Torch", "a torch", 3⟩] } ∧
    (removeItem "torch" 5 { inventory := [⟨"torch", "Torch", "a torch", 2⟩] } :
        GameState).inventory = [] := by
  refine ⟨?_, ?_, ?_⟩
  · rw [(C10_remove_item_spec { inventory := [⟨"torch", "Torch", "a torch", 3⟩] }
      "torch" 1).2.2.2 ⟨"torch", "Torch", "a torch", 3⟩ (by decide) (by decide)]
    decide
  · exact (C10_remove_item_spec _ "lamp" 1).2.1 (by decide)
  · rw [((C10_remove_item_spec { inventory := [⟨"torch", "Torch", "a torch", 2⟩] }
      "torch" 5).2.2.1 ⟨"torch", "Torch", "a torch", 2⟩ (by decide) (by decide)).1]
    decide

/-! ## Claim C3 -/

/-- A text with no tags at all (no bracket appears), yet with acquisition
phrasing and surrounding whitespace. -/
def c3input : List Char := " You take the map and leave.".data

/-- C3 counterexample: on a text containing no tag (no bracket at all) the
parser returns the text TRIMMED — not unchanged — and a NON-empty command
list: the natural-language item fallback infers an AddItem for "map". -/
theorem C3_no_tags_counterexample :
    c3input.all (fun c => ¬ c = '[') = true ∧
    parseGameResponse 0 (fun _ => "") c3input
      = ("You take the map and leave.".data,
          [Cmd.addItemCmd ⟨"map", "map", "Acquired during adventure", 1⟩]) ∧
    (parseGameResponse 0 (fun _ => "") c3input).1 ≠ c3input ∧
    (parseGameResponse 0 (fun _ => "") c3input).2 ≠ [] := by
  decide

/-- C3 (amended): when neither the tag patterns nor the natural-language
fallback and fact patterns find any match in the text, `parseGameResponse`
returns the text trimmed of leading and trailing whitespace — hence the
text unchanged whenever it has none — and an empty command list. -/
theorem C3_no_match_spec (now : Int) (uuid : Nat → String) (t : List Char)
    (h1 : reSearch itemAddRE t = none) (h2 : reSearch locRE t = none)
    (h3 : reSearch npcRE t = none) (h4 : reSearch eventRE t = none)
    (h5 : reSearch itemP1 t = none) (h6 : reSearch itemP2 t = none)
    (h7 : reSearch itemP3 t = none)
    (h8 : reSearch locP1 t = none) (h9 : reSearch locP2 t = none)
    (h10 : reSearch locP3 t = none)
    (h11 : reSearch factP1 t = none) (h12 : reSearch factP2 t = none)
    (h13 : reSearch factP3 t = none) :
    parseGameResponse now uuid t = (jsTrim t, []) := by
  unfold parseGameResponse replaceAll itemFallback locFallback factExtract allMatches firstMatch
  simp only [replaceAllAux, allMatchesAux, h1, h2, h3, h4, h5, h6, h7, h8, h9, h10, h11, h12,
    h13, List.enum_nil, List.map_nil, List.append_nil, List.nil_append, List.any_nil,
    Bool.false_eq_true, if_false, List.foldl_nil, Option.map_none', List.flatMap_cons,
    List.flatMap_nil, List.filterMap_nil]

/-- C3 witness: a concrete plain text with no matches anywhere parses to
itself (it has no surrounding whitespace) with no commands. -/
theorem C3_no_match_spec_witness :
    parseGameResponse 0 (fun _ => "") "hello".data = ("hello".data, []) := by
  rw [C3_no_match_spec 0 (fun _ => "") "hello".data (by decide) (by decide) (by decide)
    (by decide) (by decide) (by decide) (by decide) (by decide) (by decide) (by decide)
    (by decide) (by decide) (by decide)]
  decide

/-! ## Claim C8 -/

/-- C8: the detector classifies the three specification examples as
required — "I arrive at the tavern" yields the arrival directive for the
tavern (not a movement directive), "I go to the tavern" yields the
movement directive, "I look around" yields no directive — and arrival
patterns are consulted first: whenever an arrival pattern accepts the
normalized input the result is the arrival directive, regardless of any
movement pattern. -/
theorem C8_movement_intent_detection :
    detectMovementIntent "I arrive at the tavern" = arrivalDirective "tavern" ∧
    detectMovementIntent "I arrive at the tavern" ≠ movementDirective "tavern" ∧
    detectMovementIntent "I go to the tavern" = movementDirective "tavern" ∧
    detectMovementIntent "I look around" = "" ∧
    (∀ input : String, arrivalAny (jsTrim (lowerStr input.data)) = true →
      detectMovementIntent input
        = arrivalDirective (detectDestination (jsTrim (lowerStr input.data)))) := by
  refine ⟨by decide, by decide, by decide, by decide, fun input h => ?_⟩
  unfold detectMovementIntent
  simp only [h, if_true]

/-- C8 witness: the ordering clause applied to the concrete arrival
input. -/
theorem C8_movement_intent_detection_witness :
    detectMovementIntent "I arrive at the tavern"
      = arrivalDirective (detectDestination (jsTrim (lowerStr "I arrive at the tavern".data))) :=
  C8_movement_intent_detection.2.2.2.2 "I arrive at the tavern" (by decide)

end RoleGame
